import Mathlib

/-!
Shallow embedding of the identity / entitlement service (`src/user.js`,
`src/unnamed/part_002` DB layer, `src/unnamed/part_000` DDL) of the
`rest_template` repository, together with theorems settling the frozen
claims C1 - C10.

Conventions of the embedding:
  * JS numbers are modelled as exact rationals (`ℚ`); `Math.floor` is `Int.floor`.
    `NaN`-producing arithmetic on possibly-`undefined` values is modelled with
    `Option ℚ` (where `none` plays the role of `NaN`/`undefined`) at the few
    places the source can reach it (`getPlan`).
  * JS objects with optional fields become structures with `Option` fields;
    destructuring defaults (`= 0`, `= ''`) become `Option.getD` at the use site.
  * The SQL tables become Lean lists in row (insertion) order; `findOne`
    becomes `List.find?`, `INSERT .. RETURNING` appends, `UPDATE .. WHERE uid`
    maps over the list.
  * External primitives are parameters: the PBKDF2 key-derivation function
    (`crypto.pbkdf2Sync`) is a function argument `kdf`, and the outputs of the
    CSPRNG (generated password, generated salt) are explicit string arguments.
  * Fallible JS code returns `Except JsError`; a thrown `new Error(msg)` is
    `JsError.thrown msg`, and the two engine-raised error classes that the
    source can actually hit are modelled by their own constructors.
-/

namespace RT

/-- Errors raisable by the embedded code: `thrown m` is `throw new Error(m)`;
`referenceError n` is the engine error for reading an undeclared identifier `n`;
`typeError m` is an engine `TypeError` (reading a property of `undefined`,
or assigning to a `const` binding). -/
inductive JsError where
  | thrown (msg : String)
  | referenceError (name : String)
  | typeError (msg : String)
deriving DecidableEq, Repr

/-- JS truthiness of a possibly-absent string: `undefined` and the empty
string are falsy. -/
def jsTruthyStr (s : Option String) : Bool :=
  match s with
  | none => false
  | some v => v ≠ ""

/-- JS falsiness of a possibly-absent string (negation of `jsTruthyStr`). -/
def jsFalsyStr (s : Option String) : Bool := !jsTruthyStr s

/-- JS truthiness of a possibly-absent numeric id: `undefined` and `0` are falsy. -/
def jsTruthyNat (n : Option Nat) : Bool :=
  match n with
  | none => false
  | some v => v ≠ 0

/-- `startsWith hay needle` is true when `needle` is an initial segment of `hay`. -/
def startsWith : List Char → List Char → Bool
  | _, [] => true
  | [], _ :: _ => false
  | a :: as, b :: bs => a == b && startsWith as bs

/-- `hasSub needle hay` models `hay.includes(needle)` of JS: `needle` occurs
as a contiguous segment of `hay`. -/
def hasSub (needle : List Char) : List Char → Bool
  | [] => startsWith [] needle
  | a :: t => startsWith (a :: t) needle || hasSub needle t

/-- `strIncludes s sub` models the JS expression `s.includes(sub)`. -/
def strIncludes (s sub : String) : Bool := hasSub sub.data s.data

/-- ASCII lower-casing, the fragment of `String.prototype.toLowerCase`
exercised by the source (plan names and price tags are ASCII). -/
def lowerStr (s : String) : String := ⟨s.data.map Char.toLower⟩

/-- `String.prototype.trim`: drop whitespace from both ends. -/
def trimChars (l : List Char) : List Char :=
  ((l.dropWhile Char.isWhitespace).reverse.dropWhile Char.isWhitespace).reverse

/-- `String.prototype.split` with a one-character separator: splits into the
(always nonempty) list of separator-free segments. -/
def splitOnChar (c : Char) : List Char → List (List Char)
  | [] => [[]]
  | a :: t =>
    if a == c then [] :: splitOnChar c t
    else
      match splitOnChar c t with
      | [] => [[a]]
      | h :: r => (a :: h) :: r

theorem splitOnChar_of_not_mem (c : Char) (l : List Char) (h : c ∉ l) :
    splitOnChar c l = [l] := by
  induction l with
  | nil => rfl
  | cons a t ih =>
    have ha : a ≠ c := fun e => h (e ▸ List.mem_cons_self a t)
    have ht : c ∉ t := fun m => h (List.mem_cons_of_mem a m)
    simp [splitOnChar, ha, ih ht]

theorem splitOnChar_append (c : Char) (l₁ l₂ : List Char) (h : c ∉ l₁) :
    splitOnChar c (l₁ ++ c :: l₂) = l₁ :: splitOnChar c l₂ := by
  induction l₁ with
  | nil => simp [splitOnChar]
  | cons a t ih =>
    have ha : a ≠ c := fun e => h (e ▸ List.mem_cons_self a t)
    have ht : c ∉ t := fun m => h (List.mem_cons_of_mem a m)
    have hne : splitOnChar c (t ++ c :: l₂) = t :: splitOnChar c l₂ := ih ht
    simp [splitOnChar, ha, hne]

/-! ### Credential store (`hashPassword` / `verifyPassword`, src/user.js 36-63)

`crypto.pbkdf2Sync(password, salt, 10000, 64, 'sha512').toString('hex')` is an
external primitive; it enters the model as the function argument `kdf`.  The
salt that `hashPassword` generates when none is supplied
(`crypto.randomBytes(16).toString('hex')`) is likewise an explicit argument. -/

/-- src/user.js 36-46: the stored credential string `salt:derivedKeyHex`. -/
def hashPassword (kdf : String → String → String) (password salt : String) : String :=
  salt ++ ":" ++ kdf password salt

/-- src/user.js 54-63: split the stored string on `:`, re-derive with the
extracted salt, and compare.  `stored.split(':')` always yields at least one
segment; the JS destructuring takes segment 0 as the salt and segment 1 (which
may be `undefined`) as the stored key, and `hash === verifyHash` is false when
segment 1 is absent. -/
def verifyPassword (kdf : String → String → String) (password stored : String) : Bool :=
  let parts := splitOnChar ':' stored.data
  let saltPart : String := ⟨parts.headD []⟩
  let hashPart : Option String := (parts.get? 1).map (fun l => ⟨l⟩)
  hashPart == some (kdf password saltPart)

/-- Stand-in used where the user flows call the external PBKDF2 primitive;
none of the user-flow claims depend on its values. -/
def pbkdf2Model (password salt : String) : String := "#" ++ password ++ "/" ++ salt

theorem hashPassword_data (kdf : String → String → String) (p salt : String) :
    (hashPassword kdf p salt).data = salt.data ++ ':' :: (kdf p salt).data := by
  simp [hashPassword, String.data_append]

/-- C9: a password verifies against its own fresh hash; a different password
whose derived key differs does not verify; and hashing under two distinct
generated salts yields two distinct stored strings.  The hypotheses record
that hex-encoded salts and derived keys contain no `:` separator, that the
two generated salts are distinct, and that the KDF separates the two
passwords at the first salt (the collision-freeness the claim presumes of
the external PBKDF2 primitive). -/
theorem C9_password_roundtrip (kdf : String → String → String) (p w salt₁ salt₂ : String)
    (hs₁ : ':' ∉ salt₁.data) (hs₂ : ':' ∉ salt₂.data)
    (hk₁ : ':' ∉ (kdf p salt₁).data) (hk₂ : ':' ∉ (kdf p salt₂).data)
    (_hwp : w ≠ p) (hcol : kdf w salt₁ ≠ kdf p salt₁) (hss : salt₁ ≠ salt₂) :
    verifyPassword kdf p (hashPassword kdf p salt₁) = true ∧
    verifyPassword kdf w (hashPassword kdf p salt₁) = false ∧
    hashPassword kdf p salt₁ ≠ hashPassword kdf p salt₂ := by
  have hsplit₁ : splitOnChar ':' (hashPassword kdf p salt₁).data
      = [salt₁.data, (kdf p salt₁).data] := by
    rw [hashPassword_data, splitOnChar_append ':' _ _ hs₁,
      splitOnChar_of_not_mem ':' _ hk₁]
  have hsplit₂ : splitOnChar ':' (hashPassword kdf p salt₂).data
      = [salt₂.data, (kdf p salt₂).data] := by
    rw [hashPassword_data, splitOnChar_append ':' _ _ hs₂,
      splitOnChar_of_not_mem ':' _ hk₂]
  refine ⟨?_, ?_, ?_⟩
  · simp [verifyPassword, hsplit₁]
  · have hmk : (⟨(kdf p salt₁).data⟩ : String) = kdf p salt₁ := rfl
    have hmk' : (⟨salt₁.data⟩ : String) = salt₁ := rfl
    simp only [verifyPassword, hsplit₁, List.headD, List.get?, Option.map_some', hmk, hmk',
      beq_eq_false_iff_ne, ne_eq, Option.some.injEq]
    intro h
    exact hcol h.symm
  · intro h
    have hd := congrArg String.data h
    have h₁ := hsplit₁
    rw [hd, hsplit₂] at h₁
    have : salt₂.data = salt₁.data := by
      injection h₁ with h₁a _
    exact hss (congrArg String.mk this).symm

theorem C9_password_roundtrip_witness :
    verifyPassword pbkdf2Model "pw1" (hashPassword pbkdf2Model "pw1" "aa") = true ∧
    verifyPassword pbkdf2Model "pw2" (hashPassword pbkdf2Model "pw1" "aa") = false ∧
    hashPassword pbkdf2Model "pw1" "aa" ≠ hashPassword pbkdf2Model "pw1" "bb" :=
  C9_password_roundtrip pbkdf2Model "pw1" "pw2" "aa" "bb"
    (by decide) (by decide) (by decide) (by decide)
    (by decide) (by decide) (by decide)

/-! ### Ephemeral KV cache (`getKV` / `setKV` / `delKV`, src/unnamed/part_002 310-334)

The `kv` table (src/unnamed/part_000: `key TEXT PRIMARY KEY, value JSONB,
expire BIGINT NOT NULL DEFAULT 0`) is a list of entries in row order; the
value type is a parameter since the cache is generic. -/

structure KVEntry (α : Type) where
  key : String
  value : α
  expire : ℚ
deriving DecidableEq, Repr

/-- `SELECT value, expire FROM kv WHERE key = $1` (first matching row). -/
def kvFind {α : Type} (kv : List (KVEntry α)) (k : String) : Option (KVEntry α) :=
  kv.find? (fun e => e.key == k)

/-- src/unnamed/part_002 332-334: `DELETE FROM kv WHERE key = $1`. -/
def delKV {α : Type} (kv : List (KVEntry α)) (k : String) : List (KVEntry α) :=
  kv.filter (fun e => !(e.key == k))

/-- src/unnamed/part_002 322-330: look the key up; a missing row is `null`;
a row with `expire < Date.now()` is deleted and reported `null`; otherwise the
stored value is returned.  Returns the result together with the table after
the opportunistic delete.  Note the source compares `res.expire < Date.now()`
with no special case for `expire = 0`. -/
def getKV {α : Type} (kv : List (KVEntry α)) (k : String) (now : ℚ) :
    Option α × List (KVEntry α) :=
  match kvFind kv k with
  | none => (none, kv)
  | some e => if e.expire < now then (none, delKV kv k) else (some e.value, kv)

/-- C10 (code_bug evidence): at the failing input - an entry stored with
`expire = 0`, clock at 1000 ms - `getKV` deletes the entry and returns `null`,
while the claim (and the DDL, whose partial index `WHERE expire <> 0` treats
zero-expire rows as never expiring) says the stored value is returned.  The
nonzero-and-past and nonzero-and-future behaviours match the claim. -/
theorem C10_getKV_zero_expire :
    getKV [⟨"k", "v", 0⟩] "k" 1000 = (none, ([] : List (KVEntry String))) ∧
    (getKV [⟨"k", "v", (0 : ℚ)⟩] "k" 1000).1 ≠ some "v" ∧
    getKV [⟨"k", "v", 500⟩] "k" 1000 = (none, ([] : List (KVEntry String))) ∧
    getKV [⟨"k", "v", 5000⟩] "k" 1000 = (some "v", [⟨"k", "v", 5000⟩]) := by
  refine ⟨rfl, ?_, rfl, rfl⟩
  intro h
  simp [getKV, kvFind, List.find?] at h

/-! ### Data model: user rows, payment metadata, the service state

The `users` table (src/unnamed/part_000): `uid SERIAL, email TEXT UNIQUE NOT
NULL, pass TEXT NOT NULL, frm INTEGER, info JSONB, status INTEGER`.  The
`info` JSON bag holds the subscription snapshot `pay`, the proration seconds
`delta`, and (from the federated-login flows) an `avatar`; fields of the
webhook metadata that no embedded operation reads (`pid`, `email`, `lang`)
are omitted. -/

/-- The payment metadata object: both the `order_paid` webhook payload and,
verbatim, the stored `info.pay` snapshot (`pay: meta` is persisted wholesale). -/
structure PayMeta where
  uid : Option Nat := none
  type : Option Int := none
  name : Option String := none
  product : Option String := none
  amount : Option ℚ := none
  endTime : Option ℚ := none
  price : Option String := none
  order_id : Option String := none
deriving DecidableEq, Repr

/-- The `info` JSON bag of a user row. -/
structure Info where
  pay : Option PayMeta := none
  delta : Option ℚ := none
  avatar : Option String := none
deriving DecidableEq, Repr

/-- One row of the `users` table.  `createUser` and `authenticateUser` strip
`pass` from what they hand back; the embedding returns the full row and no
claim inspects `pass` of a returned value. -/
structure UserRow where
  uid : Nat
  email : String
  pass : String
  frm : Nat
  info : Info
  status : Nat
deriving DecidableEq, Repr

/-- A parsed OTT payload as stored (JSON-encoded) in the cache by the external
identity broker: `{type, email, picture, avatar_url}`. -/
structure OTTPayload where
  type : Option String := none
  email : Option String := none
  picture : Option String := none
  avatar_url : Option String := none
deriving DecidableEq, Repr

/-- The mutable state the embedded operations touch: the `users` table with
its `SERIAL` counter, the `kv` cache (values are JSON-parsed OTT payloads;
`none` models a stored JSON `null`), and the `payments` audit table. -/
structure Store where
  users : List UserRow := []
  nextUid : Nat := 1000
  kv : List (KVEntry (Option OTTPayload)) := []
  payments : List PayMeta := []
deriving DecidableEq, Repr

/-- `SELECT .. FROM users WHERE email = $1` (first row in table order; note:
no `status` filter). -/
def findByEmail (users : List UserRow) (e : String) : Option UserRow :=
  users.find? (fun u => u.email == e)

/-- `SELECT .. FROM users WHERE uid = $1`. -/
def findByUid (users : List UserRow) (uid : Nat) : Option UserRow :=
  users.find? (fun u => u.uid == uid)

/-- `SELECT * FROM users WHERE email = $1 AND status = 1` (authenticateUser);
an absent email parameter matches no row. -/
def findActiveByEmail (users : List UserRow) (e : Option String) : Option UserRow :=
  match e with
  | none => none
  | some v => users.find? (fun u => u.email == v && u.status == 1)

/-- src/user.js 219-236 `getUser` after its validation: query by uid when uid
is truthy, otherwise by email. -/
def getUserFn (st : Store) (email : Option String) (uid : Option Nat) : Option UserRow :=
  if jsTruthyNat uid then findByUid st.users (uid.getD 0)
  else
    match email with
    | none => none
    | some e => findByEmail st.users e

/-- src/user.js 102-152 `createUser`.  `ent` is the output of the CSPRNG used
by `generateRandomPassword` for a federated account with no password, and
`salt` the generated PBKDF2 salt.  Sequence of the source: validate email,
resolve the final password (throwing when a native signup has none), pre-check
the email against the whole table (no status filter), hash, insert with the
next `SERIAL` uid. -/
def createUser (st : Store) (email password : Option String) (frm : Nat)
    (info : Info) (status : Nat) (ent salt : String) :
    Except JsError UserRow × Store :=
  if jsFalsyStr email then (.error (.thrown "邮箱不能为空"), st)
  else
    let finalPassword : Except JsError String :=
      if 0 < frm ∧ jsFalsyStr password = true then .ok ent
      else if jsFalsyStr password then .error (.thrown "密码不能为空")
      else .ok (password.getD "")
    match finalPassword with
    | .error e => (.error e, st)
    | .ok fp =>
      match findByEmail st.users (email.getD "") with
      | some _ => (.error (.thrown "邮箱已被注册"), st)
      | none =>
        let row : UserRow :=
          { uid := st.nextUid, email := email.getD "",
            pass := hashPassword pbkdf2Model fp salt,
            frm := frm, info := info, status := status }
        (.ok row, { st with users := st.users ++ [row], nextUid := st.nextUid + 1 })

/-- src/user.js 449-481 `ensureUser`: validate that email or uid is present,
look the user up, return an existing row unchanged, otherwise create with
`frm || 0` and no password. -/
def ensureUser (st : Store) (email : Option String) (uid : Option Nat)
    (frm : Option Nat) (info : Info) (ent salt : String) :
    Except JsError UserRow × Store :=
  if jsFalsyStr email ∧ jsTruthyNat uid = false then
    (.error (.thrown "必须提供邮箱或用户ID"), st)
  else
    match getUserFn st email uid with
    | some user => (.ok user, st)
    | none =>
      if jsFalsyStr email then (.error (.thrown "创建用户时邮箱不能为空"), st)
      else createUser st email none (frm.getD 0) info 1 ent salt

/-- src/user.js 183 reads the bare identifier `OTT` inside `authenticateUser`,
but no binding named `OTT` is in scope there: the parameter pattern is
`{email, password}` and the module top level binds only the imports and the
`User` class.  In an ES module (strict mode) reading an undeclared identifier
raises `ReferenceError`. -/
def lookupFreeOTT : Except JsError (Option String) :=
  .error (.referenceError "OTT")

/-- src/user.js 182-210 `authenticateUser`.  The body past the first condition
is transcribed faithfully, although with the module as written the free
`OTT` lookup on line 183 throws before any of it can run. -/
def authenticateUser (st : Store) (email password : Option String) :
    Except JsError (Option UserRow) :=
  match lookupFreeOTT with
  | .error e => .error e
  | .ok ott =>
    if jsTruthyStr ott = false ∧ (jsFalsyStr email ∨ jsFalsyStr password) then
      .error (.thrown "邮箱和密码不能为空")
    else
      match findActiveByEmail st.users email with
      | none => .ok none
      | some u =>
        let ok := (password.map (fun pw => verifyPassword pbkdf2Model pw u.pass)).getD false
        if ok then .ok (some u) else .ok none

/-- What `handleOTT` hands back: `null`, the initial empty object `let user =
{}` (kept when the payload type matches no branch), or a user row. -/
inductive OTTRes where
  | nullRes
  | emptyRes
  | userRes (u : UserRow)
deriving DecidableEq, Repr

/-- src/user.js 153-174 `handleOTT`: fetch the OTT payload from the cache
(`db.getKV`; the `db.delKV(OTT)` on line 158 is commented out, so the token is
never consumed), dispatch on `type`.  In the `maxthon` branch the source
destructures `email` with `const` on line 160 and then executes
`if (!email) email = 'non-exist@non-exist.ooo'`; assigning to a `const`
binding raises `TypeError`, so a maxthon payload without an email faults
instead of receiving the sentinel address. -/
def handleOTT (st : Store) (ott : String) (uidp : Option Nat) (now : ℚ)
    (ent salt : String) : Except JsError OTTRes × Store :=
  match getKV st.kv ott now with
  | (none, kv') => (.ok .nullRes, { st with kv := kv' })
  | (some v, kv') =>
    let st' := { st with kv := kv' }
    match v with
    | none => (.ok .nullRes, st')
    | some ob =>
      if ob.type == some "google" then
        match ensureUser st' ob.email uidp (some 1) { avatar := ob.picture } ent salt with
        | (.ok u, st₂) => (.ok (.userRes u), st₂)
        | (.error e, st₂) => (.error e, st₂)
      else if ob.type == some "maxthon" then
        if jsFalsyStr ob.email then
          (.error (.typeError "Assignment to constant variable"), st')
        else
          match ensureUser st' ob.email uidp (some 2) { avatar := ob.avatar_url } ent salt with
          | (.ok u, st₂) => (.ok (.userRes u), st₂)
          | (.error e, st₂) => (.error e, st₂)
      else if ob.type == some "email" then
        match ensureUser st' ob.email uidp (some 3) {} ent salt with
        | (.ok u, st₂) => (.ok (.userRes u), st₂)
        | (.error e, st₂) => (.error e, st₂)
      else (.ok .emptyRes, st')

theorem find?_append_of_none {α : Type} (p : α → Bool) (l₁ l₂ : List α)
    (h : l₁.find? p = none) : (l₁ ++ l₂).find? p = l₂.find? p := by
  induction l₁ with
  | nil => rfl
  | cons a t ih =>
    by_cases hpa : p a
    · rw [List.find?_cons_of_pos _ hpa] at h
      exact Option.noConfusion h
    · rw [List.find?_cons_of_neg _ hpa] at h
      rw [List.cons_append, List.find?_cons_of_neg _ hpa]
      exact ih h

/-! ### C5: `authenticateUser` throws on every call -/

/-- A store holding one active user whose password is `pw`. -/
def stC5 : Store :=
  { users := [⟨1001, "a@b.com", hashPassword pbkdf2Model "pw" "s1", 0, {}, 1⟩],
    nextUid := 1002 }

/-- C5 (code_bug evidence): with both fields present - even for the stored
user with the correct password - `authenticateUser` does not return the user
or `null`: it throws `ReferenceError` for the undeclared identifier `OTT`
read on src/user.js line 183; the missing-field call throws the same
`ReferenceError` instead of the validation error. -/
theorem C5_authenticate_reference_error :
    authenticateUser stC5 (some "a@b.com") (some "pw")
        = .error (.referenceError "OTT") ∧
    authenticateUser stC5 none none = .error (.referenceError "OTT") ∧
    ∀ r : Option UserRow,
      authenticateUser stC5 (some "a@b.com") (some "pw") ≠ .ok r := by
  refine ⟨rfl, rfl, ?_⟩
  intro r h
  rw [show authenticateUser stC5 (some "a@b.com") (some "pw")
        = .error (.referenceError "OTT") from rfl] at h
  exact Except.noConfusion h

/-! ### C6: maxthon payload without an email faults on the `const` binding -/

def payloadC6 : OTTPayload := { type := some "maxthon", avatar_url := some "http://a/x.png" }

def stC6 : Store := { kv := [⟨"tokM", some payloadC6, 9000000000000⟩] }

/-- C6 (code_bug evidence): resolving a `maxthon` OTT payload with no email
does not substitute the sentinel address and ensure a user - the reassignment
of the `const`-destructured `email` on src/user.js line 167 raises
`TypeError`, no user is ensured, and the store is left without any user row. -/
theorem C6_maxthon_missing_email_faults :
    (handleOTT stC6 "tokM" none 1700000000000 "rnd" "s1").1
        = .error (.typeError "Assignment to constant variable") ∧
    (∀ u, (handleOTT stC6 "tokM" none 1700000000000 "rnd" "s1").1
        ≠ .ok (.userRes u)) ∧
    (handleOTT stC6 "tokM" none 1700000000000 "rnd" "s1").2.users = [] := by
  refine ⟨rfl, ?_, rfl⟩
  intro u h
  rw [show (handleOTT stC6 "tokM" none 1700000000000 "rnd" "s1").1
        = .error (.typeError "Assignment to constant variable") from rfl] at h
  exact Except.noConfusion h

/-! ### C7: duplicate email blocks creation, soft-deleted rows included -/

/-- C7: whenever some row (active or soft-deleted - the lookup has no status
filter) already holds the email, `createUser` fails with the conflict error
and the store - in particular the existing row - is unchanged.  The side
hypotheses state the call is otherwise well-formed, so that validation does
not fire before the uniqueness check: a nonempty email, and a password
present or a federated `frm`. -/
theorem C7_createUser_conflict (st : Store) (email : String) (password : Option String)
    (frm : Nat) (info : Info) (status : Nat) (ent salt : String) (u : UserRow)
    (hmem : findByEmail st.users email = some u)
    (hne : email ≠ "")
    (hpw : jsTruthyStr password = true ∨ 0 < frm) :
    createUser st (some email) password frm info status ent salt
      = (.error (.thrown "邮箱已被注册"), st) := by
  have hfe : jsFalsyStr (some email) = false := by
    simp [jsFalsyStr, jsTruthyStr, hne]
  rcases hpw with hp | hf
  · have hfp : jsFalsyStr password = false := by
      simp [jsFalsyStr, hp]
    simp [createUser, hfe, hfp, hmem]
  · cases hb : jsFalsyStr password with
    | true => simp [createUser, hfe, hb, hf, hmem]
    | false => simp [createUser, hfe, hb, hmem]

/-- The soft-deleted (`status = 0`) existing row of the C7 witness. -/
def uC7 : UserRow := ⟨1000, "dup@x.io", "h", 0, {}, 0⟩

def stC7 : Store := { users := [uC7], nextUid := 1001 }

theorem C7_createUser_conflict_witness :
    createUser stC7 (some "dup@x.io") (some "pw2") 0 {} 1 "e" "s"
      = (.error (.thrown "邮箱已被注册"), stC7) :=
  C7_createUser_conflict stC7 "dup@x.io" (some "pw2") 0 {} 1 "e" "s" uC7
    rfl (by decide) (Or.inl (by decide))

/-! ### C8: idempotence of `ensureUser` -/

/-- C8 (counterexample): for the email `x@y.z` with no `frm` (`frm || 0 = 0`,
the native-signup case) on an empty store, `ensureUser` does not yield a uid
even once - `createUser` throws the missing-password validation error - and
zero rows are created, not one. -/
theorem C8_ensureUser_frm0_counterexample :
    (ensureUser {} (some "x@y.z") none none {} "ent" "s").1
        = .error (.thrown "密码不能为空") ∧
    (ensureUser {} (some "x@y.z") none none {} "ent" "s").2.users = [] ∧
    ∀ u, (ensureUser {} (some "x@y.z") none none {} "ent" "s").1 ≠ .ok u := by
  refine ⟨rfl, rfl, ?_⟩
  intro u h
  rw [show (ensureUser {} (some "x@y.z") none none {} "ent" "s").1
        = .error (.thrown "密码不能为空") from rfl] at h
  exact Except.noConfusion h

/-- The row `createUser` inserts when `ensureUser` falls through to creation. -/
def newRow (st : Store) (email : String) (frm : Nat) (info : Info) (ent salt : String) :
    UserRow :=
  { uid := st.nextUid, email := email, pass := hashPassword pbkdf2Model ent salt,
    frm := frm, info := info, status := 1 }

/-- The store after inserting one fresh row. -/
def insertedStore (st : Store) (r : UserRow) : Store :=
  { st with users := st.users ++ [r], nextUid := st.nextUid + 1 }

/-- C8 (amended): `ensureUser` is idempotent on the cases that can succeed.
(a) Whenever the email or a truthy uid resolves an existing row, that row is
returned and the store is unchanged - no new row.  (b) For a federated call
(`frm > 0`, the only way `ensureUser` can create, since it passes no
password) with a fresh email, the first call creates exactly one row and the
second call returns the same uid while leaving the store unchanged. -/
theorem C8_ensureUser_idempotent (st : Store) (email : String) (uidp : Option Nat)
    (frm : Nat) (info : Info) (ent salt ent₂ salt₂ : String) :
    (∀ u, (email ≠ "" ∨ jsTruthyNat uidp = true) →
      getUserFn st (some email) uidp = some u →
      ensureUser st (some email) uidp (some frm) info ent salt = (.ok u, st)) ∧
    (0 < frm → email ≠ "" → findByEmail st.users email = none →
      ∃ u₁ st₁,
        ensureUser st (some email) none (some frm) info ent salt = (.ok u₁, st₁) ∧
        st₁.users.length = st.users.length + 1 ∧
        ∃ u₂, ensureUser st₁ (some email) none (some frm) info ent₂ salt₂
            = (.ok u₂, st₁) ∧ u₂.uid = u₁.uid) := by
  constructor
  · intro u hv hfind
    have hcond : ¬(jsFalsyStr (some email) = true ∧ jsTruthyNat uidp = false) := by
      rcases hv with he | ht
      · intro ⟨h₁, _⟩
        simp [jsFalsyStr, jsTruthyStr, he] at h₁
      · intro ⟨_, h₂⟩
        rw [ht] at h₂
        exact Bool.noConfusion h₂
    simp [ensureUser, hcond, hfind]
  · intro hf he hnone
    have hfe : jsFalsyStr (some email) = false := by
      simp [jsFalsyStr, jsTruthyStr, he]
    have hguf : getUserFn st (some email) none = none := by
      simp [getUserFn, jsTruthyNat, hnone]
    refine ⟨newRow st email frm info ent salt, insertedStore st (newRow st email frm info ent salt),
      ?_, ?_, ?_⟩
    · simp [ensureUser, hfe, hguf, createUser, hf, hnone, newRow, insertedStore,
        jsFalsyStr, jsTruthyStr, he]
    · simp [insertedStore]
    · have hguf₂ : getUserFn (insertedStore st (newRow st email frm info ent salt))
          (some email) none = some (newRow st email frm info ent salt) := by
        simp only [getUserFn, jsTruthyNat, insertedStore]
        rw [if_neg (by simp)]
        unfold findByEmail
        rw [find?_append_of_none _ _ _ hnone]
        simp [List.find?, newRow]
      refine ⟨newRow st email frm info ent salt, ?_, rfl⟩
      simp [ensureUser, hfe, hguf₂, jsFalsyStr, jsTruthyStr, he]

theorem C8_ensureUser_idempotent_witness :
    ∃ u₁ st₁,
      ensureUser {} (some "w@x.io") none (some 3) {} "e1" "s1" = (.ok u₁, st₁) ∧
      st₁.users.length = (Store.users {}).length + 1 ∧
      ∃ u₂, ensureUser st₁ (some "w@x.io") none (some 3) {} "e2" "s2"
          = (.ok u₂, st₁) ∧ u₂.uid = u₁.uid :=
  (C8_ensureUser_idempotent {} "w@x.io" none 3 {} "e1" "s1" "e2" "s2").2
    (by decide) (by decide) rfl

/-! ### C4: OTT replay is possible (deletion after use is commented out) -/

def payloadC4 : OTTPayload := { type := some "email", email := some "a@b.com" }

def stC4 : Store := { kv := [⟨"tok1", some payloadC4, 9000000000000⟩] }

def nowC4 : ℚ := 1700000000000

/-- First resolution of the token. -/
def runC4₁ : Except JsError OTTRes × Store := handleOTT stC4 "tok1" none nowC4 "rnd" "s1"

/-- Second resolution of the same token, against the state the first left. -/
def runC4₂ : Except JsError OTTRes × Store := handleOTT runC4₁.2 "tok1" none nowC4 "rnd" "s1"

/-- The row the first resolution creates. -/
def uC4 : UserRow :=
  ⟨1000, "a@b.com", hashPassword pbkdf2Model "rnd" "s1", 3, {}, 1⟩

/-- C4 (code_bug evidence): at the failing input - cache holding the unexpired
token `tok1` with payload `{type:'email', email:'a@b.com'}` - the first
`handleOTT` resolves a user, yet the token is still in the cache afterwards
(src/user.js line 158, the `db.delKV(OTT)`, is commented out), and the second
resolution of the same token resolves the same user again instead of
returning `null`. -/
theorem C4_ott_replay :
    runC4₁.1 = .ok (.userRes uC4) ∧
    kvFind runC4₁.2.kv "tok1" = some ⟨"tok1", some payloadC4, 9000000000000⟩ ∧
    runC4₂.1 = .ok (.userRes uC4) ∧
    runC4₂.1 ≠ .ok .nullRes := by
  refine ⟨rfl, rfl, rfl, ?_⟩
  intro h
  rw [show runC4₂.1 = .ok (.userRes uC4) from rfl] at h
  simp at h

/-! ### Entitlement engine: cycle inference, proration, plan classification
(src/user.js 502-576) -/

/-- 30-day month in seconds (src/user.js 524). -/
def monthSec : ℚ := 30 * 24 * 60 * 60

/-- 365-day year in seconds (src/user.js 525). -/
def yearSec : ℚ := 365 * 24 * 60 * 60

/-- The tag the code extracts from a price string:
`(priceTag || '').split('|')[1]?.trim()?.toLowerCase()` - the SECOND
`|`-segment, staying `undefined` when there is none. -/
def priceTagOf (priceTag : Option String) : Option (List Char) :=
  ((splitOnChar '|' (priceTag.getD "").data).get? 1).map
    (fun t => (trimChars t).map Char.toLower)

/-- src/user.js 526-534 `inferCycleSec`: year/month substring of the display
name first, then the price-string tag, then a 30-day month. -/
def inferCycleSec (nameStr : Option String) (priceTag : Option String) : ℚ :=
  if strIncludes (lowerStr (nameStr.getD "")) "year" then yearSec
  else if strIncludes (lowerStr (nameStr.getD "")) "month" then monthSec
  else if priceTagOf priceTag == some ['y'] then yearSec
  else if priceTagOf priceTag == some ['m'] then monthSec
  else monthSec

/-- All-digit character list to its numeric value. -/
def digitsToNat : List Char → Option Nat
  | [] => none
  | l =>
    if l.all Char.isDigit then
      some (l.foldl (fun n c => n * 10 + (c.toNat - 48)) 0)
    else none

/-- JS unary `+` on a string (`none` plays `NaN`): trimmed-empty is 0, and the
signed decimal fraction of the numeric grammar is modelled - the fragment the
price format (an integer cents amount such as `990`) exercises; exponent and
radix-prefixed literals are out of scope of the embedding. -/
def jsToNum (s : String) : Option ℚ :=
  let t := trimChars s.data
  if t.isEmpty then some 0
  else
    let signed : ℚ × List Char :=
      match t with
      | '-' :: r => (-1, r)
      | '+' :: r => (1, r)
      | _ => (1, t)
    match splitOnChar '.' signed.2 with
    | [a] => (digitsToNat a).map (fun n => signed.1 * n)
    | [a, b] =>
      if a.isEmpty ∧ b.isEmpty then none
      else
        match (if a.isEmpty then some 0 else digitsToNat a),
              (if b.isEmpty then some (0 : ℚ)
               else (digitsToNat b).map (fun n => (n : ℚ) / (10 : ℚ) ^ b.length)) with
        | some i, some f => some (signed.1 * ((i : ℚ) + f))
        | _, _ => none
    | _ => none

/-- src/user.js 515-518: the effective new amount - `meta.amount` defaulted to
0 and, when it is exactly 0, `+(meta.price?.split('|')[0]) || 0`. -/
def effNewAmount (meta : PayMeta) : ℚ :=
  if meta.amount.getD 0 = 0 then
    match meta.price with
    | none => 0
    | some p =>
      match jsToNum ⟨(splitOnChar '|' p.data).headD []⟩ with
      | none => 0
      | some v => v
  else meta.amount.getD 0

/-- `Math.max` on two (finite) JS numbers, written as an executable
conditional so that concrete runs evaluate inside the kernel. -/
def jsMax (a b : ℚ) : ℚ := if a ≤ b then b else a

theorem jsMax_eq_max (a b : ℚ) : jsMax a b = max a b := by
  unfold jsMax
  rcases le_total a b with h | h
  · rw [if_pos h, max_eq_right h]
  · by_cases he : a ≤ b
    · rw [if_pos he, max_eq_right he]
    · rw [if_neg he, max_eq_left h]

/-- src/user.js 511-547: the proration delta computed when the user has a
prior `pay` snapshot.  Old values are destructured with defaults
(`amount = 0`, `endTime = 0`, `name = ''`); the old cycle is inferred from the
old name ONLY (line 535 passes no price), the new cycle from the new name and
`meta.price`. -/
def computeDelta (oldPay : PayMeta) (meta : PayMeta) (now : ℚ) : ℚ :=
  let oldAmount := oldPay.amount.getD 0
  let newAmount := effNewAmount meta
  let remainingSec := jsMax 0 ((oldPay.endTime.getD 0 * 1000 - now) / 1000)
  let oldCycleSec := inferCycleSec (some (oldPay.name.getD "")) none
  let newCycleSec := inferCycleSec (some (meta.name.getD "")) meta.price
  if remainingSec > 0 ∧ oldAmount > 0 ∧ newAmount > 0 then
    ((Int.floor (remainingSec * ((oldAmount / oldCycleSec) / (newAmount / newCycleSec))) : ℤ) : ℚ)
  else 0

/-- The delta as a function of the fetched `userinfo`: the formula on a prior
`pay` snapshot, and the initialised `delta = 0` otherwise. -/
def deltaOf (i : Info) (meta : PayMeta) (now : ℚ) : ℚ :=
  match i.pay with
  | some oldPay => computeDelta oldPay meta now
  | none => 0

/-- What `handleOrderPaid_fromCommonAPI` resolves to:
`{err:'no-uid'}`, `{code:100, err:'no-user'}` from `updateUserInfo`, or
`{code:0, info}` with the updated row. -/
inductive PaidRes where
  | errNoUid
  | noUser
  | okUpd (u : UserRow)
deriving DecidableEq, Repr

/-- Best-effort `INSERT INTO payments ...` (src/user.js 506-507): a duplicate
`order_id` (UNIQUE) or a missing `amount` (NOT NULL) makes the insert throw
and the empty catch swallows it. -/
def paymentsInsert (st : Store) (meta : PayMeta) : Store :=
  let dup :=
    match meta.order_id with
    | some o => (st.payments.find? (fun m => m.order_id == some o)).isSome
    | none => false
  if dup || meta.amount.isNone then st
  else { st with payments := st.payments ++ [meta] }

/-- `UPDATE users SET info = $1 WHERE uid = $2` (the write that
`updateUserInfo` issues). -/
def setInfoByUid (users : List UserRow) (uid : Nat) (i : Info) : List UserRow :=
  users.map (fun v => if v.uid == uid then { v with info := i } else v)

/-- src/user.js 502-549 `handleOrderPaid_fromCommonAPI`: record the payment
best-effort, reject a falsy uid, compute the delta from the prior snapshot
(0 when there is none), and persist `{pay: meta, delta}` merged into `info`
through `updateUserInfo` (which replaces the `pay` and `delta` keys and keeps
the rest of `info`). -/
def handleOrderPaid (st : Store) (meta : PayMeta) (now : ℚ) : PaidRes × Store :=
  let st₁ := paymentsInsert st meta
  match meta.uid with
  | none => (.errNoUid, st₁)
  | some uid =>
    if uid = 0 then (.errNoUid, st₁)
    else
      let delta : ℚ :=
        match (findByUid st₁.users uid).map UserRow.info with
        | some i => deltaOf i meta now
        | none => 0
      match findByUid st₁.users uid with
      | none => (.noUser, st₁)
      | some u =>
        let newInfo : Info := { u.info with pay := some meta, delta := some delta }
        (.okUpd { u with info := newInfo },
         { st₁ with users := setInfoByUid st₁.users uid newInfo })

/-- Claim C1 stated as a definition, following the words of the claim:
`remainingSeconds = max(0, oldEndTime*1000 - now)/1000`; the delta is
`floor(remainingSeconds * (oldAmount/oldCycleSeconds) /
(newAmount/newCycleSeconds))` whenever `remainingSeconds > 0` and both
amounts are positive, else 0; and a user with no prior pay snapshot gets 0.
Compared against the code-derived `computeDelta` by `C1_proration_delta`. -/
def deltaSpec (oldPay : Option PayMeta) (meta : PayMeta) (now : ℚ) : ℚ :=
  match oldPay with
  | none => 0
  | some op =>
    let oldAmount := op.amount.getD 0
    let newAmount := effNewAmount meta
    let remainingSeconds := jsMax 0 (op.endTime.getD 0 * 1000 - now) / 1000
    let oldCycleSeconds := inferCycleSec (some (op.name.getD "")) none
    let newCycleSeconds := inferCycleSec (some (meta.name.getD "")) meta.price
    if remainingSeconds > 0 ∧ oldAmount > 0 ∧ newAmount > 0 then
      ((Int.floor (remainingSeconds * (oldAmount / oldCycleSeconds)
          / (newAmount / newCycleSeconds)) : ℤ) : ℚ)
    else 0

theorem max_zero_div_thousand (x : ℚ) :
    jsMax 0 (x / 1000) = jsMax 0 x / 1000 := by
  rw [jsMax_eq_max, jsMax_eq_max]
  rcases le_total x 0 with h | h
  · have hx : x / 1000 ≤ 0 := by linarith
    rw [max_eq_left hx, max_eq_left h, zero_div]
  · have hx : 0 ≤ x / 1000 := div_nonneg h (by norm_num)
    rw [max_eq_right hx, max_eq_right h]

theorem computeDelta_eq_deltaSpec (op meta : PayMeta) (now : ℚ) :
    computeDelta op meta now = deltaSpec (some op) meta now := by
  simp only [computeDelta, deltaSpec]
  rw [max_zero_div_thousand, mul_div_assoc]

theorem paymentsInsert_users (st : Store) (meta : PayMeta) :
    (paymentsInsert st meta).users = st.users := by
  simp only [paymentsInsert]
  split <;> rfl

theorem findByUid_setInfo (users : List UserRow) (uid : Nat) (i : Info) (u : UserRow)
    (h : findByUid users uid = some u) :
    findByUid (setInfoByUid users uid i) uid = some { u with info := i } := by
  induction users with
  | nil => exact Option.noConfusion h
  | cons a t ih =>
    unfold findByUid at h
    unfold setInfoByUid findByUid
    simp only [List.map_cons]
    by_cases ha : (a.uid == uid) = true
    · rw [@List.find?_cons_of_pos UserRow (fun v => v.uid == uid) a t ha] at h
      have hau : a = u := Option.some.inj h
      subst hau
      rw [if_pos ha]
      exact @List.find?_cons_of_pos UserRow (fun v => v.uid == uid)
        { a with info := i }
        (List.map (fun v => if (v.uid == uid) = true then { v with info := i } else v) t) ha
    · rw [@List.find?_cons_of_neg UserRow (fun v => v.uid == uid) a t ha] at h
      rw [if_neg ha]
      rw [@List.find?_cons_of_neg UserRow (fun v => v.uid == uid) a
        (List.map (fun v => if (v.uid == uid) = true then { v with info := i } else v) t) ha]
      exact ih h

/-- The persisted row after a successful `handleOrderPaid`: `pay` replaced by
the event metadata and `delta` set to the computed proration.  Shared shape
lemma used by the C1 and C2 theorems. -/
theorem handleOrderPaid_run (st : Store) (meta : PayMeta) (now : ℚ) (uid : Nat) (u : UserRow)
    (huid : meta.uid = some uid) (hz : uid ≠ 0)
    (hu : findByUid st.users uid = some u) :
    findByUid (handleOrderPaid st meta now).2.users uid
      = some { u with info :=
          { u.info with pay := some meta, delta := some (deltaOf u.info meta now) } } := by
  have hu₁ : findByUid (paymentsInsert st meta).users uid = some u := by
    rw [paymentsInsert_users]
    exact hu
  have hrun : (handleOrderPaid st meta now).2
      = { paymentsInsert st meta with
          users := setInfoByUid (paymentsInsert st meta).users uid
            ({ u.info with pay := some meta, delta := some (deltaOf u.info meta now) }) } := by
    simp only [handleOrderPaid, huid, hu₁, Option.map_some']
    rw [if_neg hz]
  rw [hrun]
  exact findByUid_setInfo _ _ _ _ hu₁

/-- C1: for a payment event whose uid resolves an existing user, the
persisted `info` carries `pay := meta` and a `delta` equal to the claim
formula `deltaSpec`: `floor(remainingSeconds * (oldAmount/oldCycleSeconds) /
(newAmount/newCycleSeconds))` with `remainingSeconds = max(0, oldEndTime*1000
- now)/1000` whenever `remainingSeconds > 0` and both amounts are positive,
0 otherwise, and 0 when there is no prior pay snapshot. -/
theorem C1_proration_delta (st : Store) (meta : PayMeta) (now : ℚ) (uid : Nat) (u : UserRow)
    (huid : meta.uid = some uid) (hz : uid ≠ 0)
    (hu : findByUid st.users uid = some u) :
    ∃ u', findByUid (handleOrderPaid st meta now).2.users uid = some u' ∧
      u'.info.pay = some meta ∧
      u'.info.delta = some (deltaSpec u.info.pay meta now) := by
  refine ⟨_, handleOrderPaid_run st meta now uid u huid hz hu, rfl, ?_⟩
  show some (deltaOf u.info meta now) = some (deltaSpec u.info.pay meta now)
  unfold deltaOf
  cases hp : u.info.pay with
  | none => rfl
  | some op => exact congrArg some (computeDelta_eq_deltaSpec op meta now)

/-- The prior snapshot of the C1 witness: a yearly plan at 9900 cents with
1000000 seconds left at the witness clock. -/
def opW : PayMeta :=
  { name := some "Plus Plan Yearly", amount := some 9900,
    endTime := some 2000000, price := some "9900|Y" }

def uW : UserRow := ⟨1000, "a@b.com", "h", 0, { pay := some opW }, 1⟩

def stW : Store := { users := [uW], nextUid := 1001 }

def metaW : PayMeta :=
  { uid := some 1000, name := some "Plus Plan Monthly", amount := some 990,
    endTime := some 34592000, price := some "990|M", order_id := some "o1" }

theorem C1_proration_delta_witness :
    ∃ u', findByUid (handleOrderPaid stW metaW 1000000000).2.users 1000 = some u' ∧
      u'.info.pay = some metaW ∧
      u'.info.delta = some (deltaSpec uW.info.pay metaW 1000000000) :=
  C1_proration_delta stW metaW 1000000000 1000 uW rfl (by decide) rfl

/-! ### C2: cycle inference -/

/-- Claim C2 stated as a definition, following the words of the claim: for a
plan, 365 days when the display name contains `year` (case-insensitively),
30 days for `month`; if neither matches, a trailing `|M` / `|Y` tag on that
plan's price string decides; else a 30-day month. -/
def cycleSecSpec (nameStr : Option String) (price : Option String) : ℚ :=
  if strIncludes (lowerStr (nameStr.getD "")) "year" then yearSec
  else if strIncludes (lowerStr (nameStr.getD "")) "month" then monthSec
  else
    let segs := splitOnChar '|' (price.getD "").data
    let tag : Option (List Char) :=
      if 2 ≤ segs.length then some ((trimChars (segs.getLastD [])).map Char.toLower)
      else none
    if tag == some ['y'] then yearSec
    else if tag == some ['m'] then monthSec
    else monthSec

/-- The C1 delta formula with the cycles inferred the way claim C2 words it:
the same rule, applied to the old plan with ITS name and price string and to
the new plan with its name and price string. -/
def deltaC2Spec (op : PayMeta) (meta : PayMeta) (now : ℚ) : ℚ :=
  let oldAmount := op.amount.getD 0
  let newAmount := effNewAmount meta
  let remainingSeconds := jsMax 0 (op.endTime.getD 0 * 1000 - now) / 1000
  let oldCycleSeconds := cycleSecSpec op.name op.price
  let newCycleSeconds := cycleSecSpec meta.name meta.price
  if remainingSeconds > 0 ∧ oldAmount > 0 ∧ newAmount > 0 then
    ((Int.floor (remainingSeconds * (oldAmount / oldCycleSeconds)
        / (newAmount / newCycleSeconds)) : ℤ) : ℚ)
  else 0

/-- The old snapshot of the C2 counterexample: display name `Premium` (no
year/month substring) but a yearly `|Y` price tag, 1296000 s remaining. -/
def opC2 : PayMeta :=
  { name := some "Premium", amount := some 9900,
    endTime := some 1300000, price := some "9900|Y" }

def metaC2 : PayMeta :=
  { uid := some 1000, name := some "Plus Plan Monthly", amount := some 990 }

def uC2 : UserRow := ⟨1000, "p@q.io", "h", 0, { pay := some opC2 }, 1⟩

def stC2 : Store := { users := [uC2], nextUid := 1001 }

/-- C2 (counterexample): the code never consults the OLD plan's price string
- line 535 calls `inferCycleSec(oldName)` with no price - so the old cycle of
this run defaults to the 30-day month and the persisted delta is 12960000,
while inferring the old cycle from the old plan's own `9900|Y` tag, as the
claim words it, would give the yearly cycle and delta 1065205. -/
theorem C2_old_price_tag_ignored :
    (∃ u', findByUid (handleOrderPaid stC2 metaC2 4000000).2.users 1000 = some u' ∧
        u'.info.delta = some 12960000) ∧
    deltaC2Spec opC2 metaC2 4000000 = 1065205 ∧
    (12960000 : ℚ) ≠ 1065205 := by
  have hδ : computeDelta opC2 metaC2 4000000 = 12960000 := by
    simp only [computeDelta]
    rw [show (opC2.amount).getD 0 = 9900 from rfl,
      show (opC2.endTime).getD 0 = 1300000 from rfl,
      show inferCycleSec (some ((opC2.name).getD "")) none = monthSec from rfl,
      show inferCycleSec (some ((metaC2.name).getD "")) metaC2.price = monthSec from rfl,
      show effNewAmount metaC2 = 990 from rfl]
    have hrem : jsMax 0 (((1300000 : ℚ) * 1000 - 4000000) / 1000) = 1296000 := by
      rw [show (((1300000 : ℚ) * 1000 - 4000000) / 1000) = 1296000 from by norm_num,
        jsMax_eq_max, max_eq_right (by norm_num)]
    rw [hrem, if_pos ⟨by norm_num, by norm_num, by norm_num⟩]
    rw [show (1296000 : ℚ) * ((9900 / monthSec) / (990 / monthSec)) = ((12960000 : ℤ) : ℚ)
      from by norm_num [monthSec], Int.floor_intCast]
    norm_num
  refine ⟨⟨_, handleOrderPaid_run stC2 metaC2 4000000 1000 uC2 rfl (by decide) rfl, ?_⟩,
    ?_, by norm_num⟩
  · show some (deltaOf uC2.info metaC2 4000000) = some ((12960000 : ℚ))
    rw [show deltaOf uC2.info metaC2 4000000 = computeDelta opC2 metaC2 4000000 from rfl, hδ]
  · simp only [deltaC2Spec]
    rw [show (opC2.amount).getD 0 = 9900 from rfl,
      show (opC2.endTime).getD 0 = 1300000 from rfl,
      show cycleSecSpec opC2.name opC2.price = yearSec from rfl,
      show cycleSecSpec metaC2.name metaC2.price = monthSec from rfl,
      show effNewAmount metaC2 = 990 from rfl]
    have hrem₂ : jsMax 0 ((1300000 : ℚ) * 1000 - 4000000) / 1000 = 1296000 := by
      rw [jsMax_eq_max, max_eq_right (by norm_num)]
      norm_num
    rw [hrem₂, if_pos ⟨by norm_num, by norm_num, by norm_num⟩]
    rw [show (1296000 : ℚ) * (9900 / yearSec) / (990 / monthSec) = 77760000 / 73
      from by norm_num [yearSec, monthSec]]
    rw [show (⌊(77760000 / 73 : ℚ)⌋ : ℤ) = 1065205 from by
      rw [Int.floor_eq_iff]
      constructor <;> norm_num]
    norm_num

/-- C2 (amended): the code applies one inference function to both plans -
year/month substrings of the lowercased display name first, then (new plan
only, since the old call passes no price) the second `|`-segment of the price
string trimmed and lowercased, with `y` meaning the 365-day year and `m` the
30-day month, and a 30-day month when nothing matches; the old plan's price
string never influences the delta. -/
theorem C2_cycle_inference (nameS price : Option String) (op meta : PayMeta) (now : ℚ) :
    (strIncludes (lowerStr (nameS.getD "")) "year" = true →
      inferCycleSec nameS price = yearSec) ∧
    (strIncludes (lowerStr (nameS.getD "")) "year" = false →
      strIncludes (lowerStr (nameS.getD "")) "month" = true →
      inferCycleSec nameS price = monthSec) ∧
    (strIncludes (lowerStr (nameS.getD "")) "year" = false →
      strIncludes (lowerStr (nameS.getD "")) "month" = false →
      priceTagOf price = some ['y'] → inferCycleSec nameS price = yearSec) ∧
    (strIncludes (lowerStr (nameS.getD "")) "year" = false →
      strIncludes (lowerStr (nameS.getD "")) "month" = false →
      priceTagOf price = some ['m'] → inferCycleSec nameS price = monthSec) ∧
    (strIncludes (lowerStr (nameS.getD "")) "year" = false →
      strIncludes (lowerStr (nameS.getD "")) "month" = false →
      priceTagOf price ≠ some ['y'] → priceTagOf price ≠ some ['m'] →
      inferCycleSec nameS price = monthSec) ∧
    computeDelta { op with price := none } meta now = computeDelta op meta now := by
  refine ⟨?_, ?_, ?_, ?_, ?_, rfl⟩
  · intro h₁
    simp [inferCycleSec, h₁]
  · intro h₁ h₂
    simp [inferCycleSec, h₁, h₂]
  · intro h₁ h₂ h₃
    simp [inferCycleSec, h₁, h₂, h₃]
  · intro h₁ h₂ h₃
    have hy : priceTagOf price ≠ some ['y'] := by
      rw [h₃]
      intro hc
      exact absurd (List.cons.inj (Option.some.inj hc)).1 (by decide)
    simp [inferCycleSec, h₁, h₂, h₃, hy]
  · intro h₁ h₂ h₃ h₄
    simp [inferCycleSec, h₁, h₂, h₃, h₄]

theorem C2_cycle_inference_witness :
    inferCycleSec (some "Plus Plan Yearly") none = yearSec ∧
    inferCycleSec (some "Pro") (some "990|M") = monthSec :=
  ⟨(C2_cycle_inference (some "Plus Plan Yearly") none {} {} 0).1 (by decide),
   (C2_cycle_inference (some "Pro") (some "990|M") {} {} 0).2.2.2.1
     (by decide) (by decide) (by decide)⟩

/-! ### C3: `getPlan` (src/user.js 551-576) -/

/-- `a < b` on possibly-undefined JS numbers: a comparison against
`undefined` (which arithmetic has turned into `NaN`) is false. -/
def jsLt (a b : Option ℚ) : Bool :=
  match a, b with
  | some x, some y => decide (x < y)
  | _, _ => false

/-- Multiply a possibly-undefined JS number by a constant (`undefined * k` is
`NaN`, modelled `none`). -/
def jsMulC (a : Option ℚ) (k : ℚ) : Option ℚ := a.map (fun x => x * k)

/-- Add a constant to a possibly-undefined JS number. -/
def jsAddC (a : Option ℚ) (k : ℚ) : Option ℚ := a.map (fun x => x + k)

/-- What `getPlan` returns: the tier name and, on paid tiers, the effective
end time `endTime + delta`.  The outer `Option` is field absence (the free
plan carries no `endTime`); the inner `Option` is the `NaN` produced when the
stored snapshot has no `endTime`. -/
structure Plan where
  name : String
  endTime : Option (Option ℚ) := none
deriving DecidableEq, Repr

def freePlan : Plan := ⟨"free", none⟩

/-- src/user.js 551-576 `getPlan`: `free` when there is no user or no `pay`
or the end time has passed; otherwise take `pay.name`, falling back to
`pay.product` when falsy - and when both are absent the source calls
`.toLowerCase()` on `undefined`, raising `TypeError` - and walk the literal
if-chain basic, pro, basic (dead repeat), plus, ultra; anything unmatched is
`free`. -/
def getPlan (user : Option UserRow) (now : ℚ) : Except JsError Plan :=
  match user with
  | none => .ok freePlan
  | some u =>
    match u.info.pay with
    | none => .ok freePlan
    | some pay =>
      if jsLt (jsMulC pay.endTime 1000) (some now) then .ok freePlan
      else
        match (if jsFalsyStr pay.name then pay.product else pay.name) with
        | none => .error (.typeError "Cannot read properties of undefined")
        | some n₀ =>
          if strIncludes (lowerStr n₀) "basic" then
            .ok ⟨"basic", some (jsAddC pay.endTime ((u.info.delta).getD 0))⟩
          else if strIncludes (lowerStr n₀) "pro" then
            .ok ⟨"pro", some (jsAddC pay.endTime ((u.info.delta).getD 0))⟩
          else if strIncludes (lowerStr n₀) "basic" then
            .ok ⟨"basic", some (jsAddC pay.endTime ((u.info.delta).getD 0))⟩
          else if strIncludes (lowerStr n₀) "plus" then
            .ok ⟨"plus", some (jsAddC pay.endTime ((u.info.delta).getD 0))⟩
          else if strIncludes (lowerStr n₀) "ultra" then
            .ok ⟨"ultra", some (jsAddC pay.endTime ((u.info.delta).getD 0))⟩
          else .ok freePlan

/-- The ranked keyword list of the claim (and of the spec), evaluated in
fixed priority order. -/
def planKeywords : List (String × String) :=
  [("basic", "basic"), ("pro", "pro"), ("plus", "plus"), ("ultra", "ultra")]

/-- Classification as the claim words it: first keyword of the ranked list
occurring in the lowercased name. -/
def classifySpec (ln : String) : Option String :=
  (planKeywords.find? (fun kv => strIncludes ln kv.1)).map Prod.snd

/-- A paid snapshot with neither `name` nor `product`. -/
def payC3 : PayMeta := { amount := some 990, endTime := some 99999999 }

def uC3 : UserRow := ⟨1000, "c@d.io", "h", 0, { pay := some payC3 }, 1⟩

/-- C3 (counterexample): for a user whose unexpired `pay` snapshot has
neither `name` nor `product`, `getPlan` does not fall back to
`{name:'free'}` - it throws the `TypeError` from `undefined.toLowerCase()`
and returns no plan at all. -/
theorem C3_missing_name_counterexample :
    getPlan (some uC3) 1000 = .error (.typeError "Cannot read properties of undefined") ∧
    ∀ p : Plan, getPlan (some uC3) 1000 ≠ .ok p := by
  have hlt : jsLt (jsMulC (some (99999999 : ℚ)) 1000) (some 1000) = false := by
    simp only [jsMulC, Option.map_some', jsLt]
    exact decide_eq_false (by norm_num)
  have hgp : getPlan (some uC3) 1000
      = .error (.typeError "Cannot read properties of undefined") := by
    simp [getPlan, uC3, payC3, hlt, jsFalsyStr, jsTruthyStr]
  refine ⟨hgp, ?_⟩
  intro p h
  rw [hgp] at h
  exact Except.noConfusion h

/-- C3 (amended): `getPlan` behaves as the claim states - free on a missing
snapshot or a passed end time, tier classification in the fixed priority
order basic, pro, plus, ultra on the lowercased name (with `pay.product`
substituted for a falsy `pay.name`) carrying `endTime + delta` with an absent
delta read as 0, unmatched names falling back to free - EXCEPT that when both
`name` and `product` are absent it raises `TypeError` instead of returning
the free plan. -/
theorem C3_getPlan_classification (u : UserRow) (now : ℚ) :
    (u.info.pay = none → getPlan (some u) now = .ok freePlan) ∧
    ∀ pay, u.info.pay = some pay →
      (jsLt (jsMulC pay.endTime 1000) (some now) = true →
        getPlan (some u) now = .ok freePlan) ∧
      (jsLt (jsMulC pay.endTime 1000) (some now) = false →
        ((if jsFalsyStr pay.name then pay.product else pay.name) = none →
          getPlan (some u) now
            = .error (.typeError "Cannot read properties of undefined")) ∧
        ∀ n, (if jsFalsyStr pay.name then pay.product else pay.name) = some n →
          getPlan (some u) now =
            .ok (match classifySpec (lowerStr n) with
              | some tier => ⟨tier, some (jsAddC pay.endTime ((u.info.delta).getD 0))⟩
              | none => freePlan)) := by
  refine ⟨?_, ?_⟩
  · intro h
    simp [getPlan, h]
  · intro pay hpay
    refine ⟨?_, ?_⟩
    · intro hlt
      simp [getPlan, hpay, hlt]
    · intro hlt
      refine ⟨?_, ?_⟩
      · intro hn
        simp [getPlan, hpay, hlt, hn]
      · intro n hn
        simp only [getPlan, hpay, hlt, Bool.false_eq_true, if_false, hn]
        by_cases hb : strIncludes (lowerStr n) "basic" = true
        · simp [classifySpec, planKeywords, List.find?, hb]
        · rw [Bool.not_eq_true] at hb
          by_cases hp : strIncludes (lowerStr n) "pro" = true
          · simp [classifySpec, planKeywords, List.find?, hb, hp]
          · rw [Bool.not_eq_true] at hp
            by_cases hpl : strIncludes (lowerStr n) "plus" = true
            · simp [classifySpec, planKeywords, List.find?, hb, hp, hpl]
            · rw [Bool.not_eq_true] at hpl
              by_cases hul : strIncludes (lowerStr n) "ultra" = true
              · simp [classifySpec, planKeywords, List.find?, hb, hp, hpl, hul]
              · rw [Bool.not_eq_true] at hul
                simp [classifySpec, planKeywords, List.find?, hb, hp, hpl, hul, freePlan]

/-- The snapshot of the C3 witness: the example of the claim, a
`Pro Plan Monthly` plan with an unexpired end time and no stored delta. -/
def payW3 : PayMeta :=
  { name := some "Pro Plan Monthly", amount := some 1000, endTime := some 2592001 }

def uW3 : UserRow := ⟨1000, "w@x.io", "h", 0, { pay := some payW3 }, 1⟩

theorem C3_getPlan_classification_witness :
    jsLt (jsMulC payW3.endTime 1000) (some 1000) = false ∧
    getPlan (some uW3) 1000 = .ok ⟨"pro", some (jsAddC payW3.endTime 0)⟩ := by
  have hlt : jsLt (jsMulC payW3.endTime 1000) (some 1000) = false := by
    simp only [payW3, jsMulC, Option.map_some', jsLt]
    exact decide_eq_false (by norm_num)
  refine ⟨hlt, ?_⟩
  have h₂ := (((C3_getPlan_classification uW3 1000).2 payW3 rfl).2 hlt).2
    "Pro Plan Monthly" rfl
  rw [show classifySpec (lowerStr "Pro Plan Monthly") = some "pro" from rfl] at h₂
  exact h₂

end RT
